import Mathlib

/-!
# Verification of the llm-testing evaluation harness

Shallow embedding of the two Python source files of the repository:

* `score-results.py` — judge invocation with streaming fallback, score
  parsing (`parse_score`), aggregation (`calculate_statistics`) and the
  scoring pipeline (`score_results_file`).
* `run-test-suite.py` — transcript building (`run_test_suite`), the
  generation request (`prompt`) and the setup-error checks.

Machine integers are modelled as `Nat`/`Int`; Python `float` arithmetic on
the small scores involved is modelled exactly with `ℚ`, with Python's
`round(x, 2)` (round half to even) as `pyRound2`.
-/

/-- Python regex class `\d` restricted to ASCII: the decimal digits. -/
def isDigitChar (c : Char) : Bool :=
  '0' ≤ c && c ≤ '9'

/-- Python regex class `\s` restricted to ASCII:
space, tab, newline, carriage return, vertical tab, form feed. -/
def isSpaceChar (c : Char) : Bool :=
  c = ' ' || c = '\t' || c = '\n' || c = '\r' || c = '\x0b' || c = '\x0c'

/-- Value of a digit string, as Python `int()` computes it on a `\d+` match. -/
def digitsToNat (l : List Char) : ℕ :=
  l.foldl (fun a c => 10 * a + (c.toNat - '0'.toNat)) 0

/-- Python `str.strip()`: remove leading and trailing whitespace. -/
def pyStrip (l : List Char) : List Char :=
  ((l.dropWhile isSpaceChar).reverse.dropWhile isSpaceChar).reverse

/-- Python `round(x, 2)`: round to 2 decimal places, ties to even
(modelled on exact rational arithmetic). -/
def pyRound2 (q : ℚ) : ℚ :=
  let x : ℚ := q * 100
  let n : ℤ := ⌊x⌋
  let frac : ℚ := x - n
  let r : ℤ :=
    if frac < 1 / 2 then n
    else if 1 / 2 < frac then n + 1
    else if n % 2 = 0 then n else n + 1
  (r : ℚ) / 100

/-- Greedy `+` on a character class: consume the maximal nonempty run of
characters satisfying `p`, failing on an empty run.  This is exactly the
behaviour of `\d+` and `\s+` in the score regex: each is followed by a
piece drawn from a disjoint character class, so Python's backtracking
never shrinks these runs. -/
def takeRun (p : Char → Bool) (l : List Char) : Option (List Char × List Char) :=
  if l.takeWhile p = [] then none else some (l.takeWhile p, l.dropWhile p)

/-- Attempt to match the regex `(\d+)\s+out\s+of\s+(\d+)` at the head of
`l`, returning the two integer groups.  Because each consecutive pair of
regex pieces draws from disjoint character classes, the backtracking
search of Python's `re` degenerates to maximal munch, which is what this
function implements. -/
def matchHere (l : List Char) : Option (ℕ × ℕ) :=
  (takeRun isDigitChar l).bind fun p1 =>
  (takeRun isSpaceChar p1.2).bind fun p2 =>
  match p2.2 with
  | 'o' :: 'u' :: 't' :: r3 =>
    (takeRun isSpaceChar r3).bind fun p3 =>
    match p3.2 with
    | 'o' :: 'f' :: r5 =>
      (takeRun isSpaceChar r5).bind fun p4 =>
      (takeRun isDigitChar p4.2).bind fun p5 =>
      some (digitsToNat p1.1, digitsToNat p5.1)
    | _ => none
  | _ => none

/-- `re.search(r"(\d+)\s+out\s+of\s+(\d+)", s)`: try to match at each
position from left to right, returning the groups of the leftmost match. -/
def reSearch : List Char → Option (ℕ × ℕ)
  | [] => none
  | c :: rest =>
    match matchHere (c :: rest) with
    | some r => some r
    | none => reSearch rest

/-- The record built by `parse_score`: one judge invocation's outcome
(the Python dict with keys correct, total, percentage, raw_output, and
the parse_error flag, absent on success / set on failure). -/
structure JudgmentRun where
  correct : Option ℕ
  total : Option ℕ
  percentage : Option ℚ
  raw_output : String
  parse_error : Bool
  deriving Repr, DecidableEq

/-- `parse_score` from score-results.py: search the raw text for the first
`(\d+)\s+out\s+of\s+(\d+)` match; on a match return the two integers and
`correct / total * 100` (0 if total is 0) rounded to 2 decimals; on no
match return all-None numeric fields and the parse-error flag.  In both
cases `raw_output` is the input after `.strip()`. -/
def parse_score (result_text : String) : JudgmentRun :=
  match reSearch result_text.data with
  | some (correct, total) =>
    { correct := some correct
      total := some total
      percentage := some (pyRound2 (if 0 < total then (correct : ℚ) / total * 100 else 0))
      raw_output := ⟨pyStrip result_text.data⟩
      parse_error := false }
  | none =>
    { correct := none
      total := none
      percentage := none
      raw_output := ⟨pyStrip result_text.data⟩
      parse_error := true }

/-- The summary statistics dict built by `calculate_statistics`. -/
structure Stats where
  mean_correct : Option ℚ
  mean_percentage : Option ℚ
  min_correct : Option ℕ
  max_correct : Option ℕ
  all_runs_parsed : Bool
  deriving Repr, DecidableEq

/-- `calculate_statistics` from score-results.py: collect the non-None
`correct` and `percentage` values; if no run parsed, return all-None
numeric fields with `all_runs_parsed := false`; otherwise return the
rounded means, the extrema of the parsed correct values, and whether
every run contributed a parsed value. -/
def calculate_statistics (runs : List JudgmentRun) : Stats :=
  let correct_scores : List ℕ := runs.filterMap (fun r => r.correct)
  let percentages : List ℚ := runs.filterMap (fun r => r.percentage)
  if correct_scores.isEmpty then
    { mean_correct := none
      mean_percentage := none
      min_correct := none
      max_correct := none
      all_runs_parsed := false }
  else
    { mean_correct := some (pyRound2 ((correct_scores.sum : ℚ) / correct_scores.length))
      mean_percentage := some (pyRound2 (percentages.sum / percentages.length))
      min_correct := correct_scores.min?
      max_correct := correct_scores.max?
      all_runs_parsed := correct_scores.length = runs.length }

/-- The structured output assembled by `score_results_file`: the list of
judgment runs and the summary statistics (the metadata block carries no
verified content and is omitted). -/
structure ScoreOutput where
  runs : List JudgmentRun
  summary : Stats
  deriving Repr

/-- The evaluation loop of `score_results_file` from score-results.py:
`repetitions` judge invocations (abstracted as the function `judge` from
the repetition index to the judge's raw text), each parsed with
`parse_score` and appended to `runs`, followed by `calculate_statistics`. -/
def score_results_file (repetitions : ℕ) (judge : ℕ → String) : ScoreOutput :=
  let runs := (List.range repetitions).map (fun n => parse_score (judge n))
  { runs := runs, summary := calculate_statistics runs }

/-- A row of the questions CSV from run-test-suite.py (`sectionName`
models the Section column; `section` is a Lean keyword). -/
structure QuestionRecord where
  id : String
  sectionName : String
  question : String
  expectedAnswer : String
  deriving Repr, DecidableEq

/-- One per-question block appended to the output buffer by the
`run_test_suite` loop in run-test-suite.py. -/
def answer_block (row : QuestionRecord) (result : String) : String :=
  "---\n" ++
  "NO. " ++ row.id ++ " - " ++ row.sectionName ++ "\n" ++
  "QUESTION: " ++ row.question ++ "\n" ++
  "EXPECTED ANSWER: " ++ row.expectedAnswer ++ "\n" ++
  "ACTUAL ANSWER: " ++ result ++ "\n"

/-- The per-model question loop of `run_test_suite`: for each row in
order, one model call (abstracted as `ask` on the question text), then
the block is appended to the growing output buffer. -/
def build_transcript (ask : String → String) (questions : List QuestionRecord) : String :=
  questions.foldl (fun output row => output ++ answer_block row (ask row.question)) ""

/-- One entry of the `models` list of config.yaml, as read by
run-test-suite.py (`.get` with defaults, so every key is optional). -/
structure ModelSpec where
  name : Option String
  temperature : Option ℚ
  deriving Repr, DecidableEq

/-- The `prompt` section of config.yaml. -/
structure PromptConfig where
  system_message : Option String
  deriving Repr, DecidableEq

/-- The chat-completion request assembled by `prompt` in
run-test-suite.py. -/
structure GenRequest where
  model : String
  system : String
  user : String
  temperature : ℚ
  deriving Repr, DecidableEq

/-- `prompt` from run-test-suite.py, returning the request it sends:
model name defaults to "gpt-3.5-turbo", system message to
"You are a helpful assistant.", temperature to 0.0. -/
def prompt (model_config : ModelSpec) (prompt_config : PromptConfig)
    (question : String) : GenRequest :=
  { model := model_config.name.getD "gpt-3.5-turbo"
    system := prompt_config.system_message.getD "You are a helpful assistant."
    user := question
    temperature := model_config.temperature.getD 0 }

/-- The temperature printed by the progress display of `run_test_suite`
(line `print(f"Temperature: ...")`), which defaults to 0.7. -/
def displayed_temperature (model_config : ModelSpec) : ℚ :=
  model_config.temperature.getD (7 / 10)

/-- The setup errors `run_test_suite` raises before contacting any
model, in the order the code checks them. -/
inductive SetupError where
  | suiteMissing
  | configMissing
  | noModels
  | questionsMissing
  deriving Repr, DecidableEq

/-- The filesystem/configuration facts `run_test_suite` consults during
setup. -/
structure SuiteEnv where
  suiteExists : Bool
  configExists : Bool
  models : List ModelSpec
  questionsExists : Bool

/-- The setup phase and main loop of `run_test_suite` from
run-test-suite.py, with the generation requests it issues recorded in a
trace: the test-suite directory check, the configuration load, the
empty-models check and the questions-file check all happen, in this
order, before the first call to `prompt`.  `ask` abstracts the network
round trip for one request. -/
def run_test_suite (env : SuiteEnv) (prompt_config : PromptConfig)
    (ask : GenRequest → String) (questions : List QuestionRecord) :
    Except SetupError (List String) × List GenRequest :=
  if !env.suiteExists then (.error .suiteMissing, [])
  else if !env.configExists then (.error .configMissing, [])
  else if env.models.isEmpty then (.error .noModels, [])
  else if !env.questionsExists then (.error .questionsMissing, [])
  else
    (.ok (env.models.map (fun mc =>
        build_transcript (fun q => ask (prompt mc prompt_config q)) questions)),
     env.models.flatMap (fun mc =>
        questions.map (fun row => prompt mc prompt_config row.question)))

/-- `EVALUATION_PROMPT` from score-results.py, the fixed system prompt
sent on every judge call. -/
def EVALUATION_PROMPT : String :=
  "You are a research assistant, evaluating the responses to some exam questions on Kubernetes.\n\nThe user submits questions and answers, both the expected answers as well as the actual answers provided by a candidate.\n\nYour task is to evaluate whether the actual answer is correct or not, and then count the number of correct answers. Any single answer may only be correct or incorrect.\n\nCorrect means that the answer contains the necessary information. A correct answer is not necessarily identical to the expected answer.\n\nExample input:\n\n---\nNO. 2 - Setup & Aliases\nQUESTION: How do you enable bash autocompletion for the 'k' alias?\nEXPECTED ANSWER: complete -F __start_kubectl k\nACTUAL ANSWER: ```bash\nsource <(kubectl completion bash)\nalias k=kubectl\ncomplete -F __start_kubectl k\n```\n\nExample output:\n\n58 out of 100 answers are correct.\n"

/-- A judge-side request: the arguments passed to the provider client by
`evaluate_with_anthropic` / `evaluate_with_local` (`max_tokens` is 4096
on the Anthropic path and absent on the local path; `stream` records
whether the streaming interface was used). -/
structure JudgeRequest where
  model : String
  max_tokens : Option ℕ
  system : String
  user : String
  stream : Bool
  deriving Repr, DecidableEq

/-- The request `evaluate_with_anthropic` sends: `client.messages.stream`
and the fallback `client.messages.create` both pass the configured
model, `max_tokens=4096`, `EVALUATION_PROMPT` as system and the results
file content as the one user message. -/
def anthropicRequest (model content : String) (stream : Bool) : JudgeRequest :=
  { model := model
    max_tokens := some 4096
    system := EVALUATION_PROMPT
    user := content
    stream := stream }

/-- The request `evaluate_with_local` sends: `chat.completions.create`
with `EVALUATION_PROMPT` as the system message and the results file
content as the user message, with or without `stream=True`. -/
def localRequest (model content : String) (stream : Bool) : JudgeRequest :=
  { model := model
    max_tokens := none
    system := EVALUATION_PROMPT
    user := content
    stream := stream }

/-- `evaluate_with_anthropic` from score-results.py, with the network
abstracted: `streamCall` is the streaming attempt (returning the token
list on success, discarding any partial tokens on failure, as the code
discards its local `full_response`), `createCall` the blocking call.
The second component records the requests issued, in order.  On
streaming success the tokens are concatenated; on streaming failure one
blocking call with the same arguments is made and its outcome (text or
error) is what the caller sees. -/
def evaluate_with_anthropic (model : String)
    (streamCall : JudgeRequest → Except Unit (List String))
    (createCall : JudgeRequest → Except Unit String)
    (content : String) : Except Unit String × List JudgeRequest :=
  match streamCall (anthropicRequest model content true) with
  | .ok tokens =>
    (.ok (tokens.foldl (fun acc t => acc ++ t) ""),
     [anthropicRequest model content true])
  | .error _ =>
    (createCall (anthropicRequest model content false),
     [anthropicRequest model content true, anthropicRequest model content false])

/-- Python truthiness of `chunk.choices[0].delta.content`: `None` and
the empty string are falsy. -/
def pyTruthyStr : Option String → Bool
  | none => false
  | some s => !s.isEmpty

/-- `evaluate_with_local` from score-results.py, with the network
abstracted as for the Anthropic path.  Streamed chunks may carry no
content (`delta.content` is `None`-able); the loop appends a chunk only
when `if chunk.choices[0].delta.content:` is truthy. -/
def evaluate_with_local (model : String)
    (streamCall : JudgeRequest → Except Unit (List (Option String)))
    (createCall : JudgeRequest → Except Unit String)
    (content : String) : Except Unit String × List JudgeRequest :=
  match streamCall (localRequest model content true) with
  | .ok chunks =>
    (.ok (chunks.foldl (fun acc c => if pyTruthyStr c then acc ++ c.getD "" else acc) ""),
     [localRequest model content true])
  | .error _ =>
    (createCall (localRequest model content false),
     [localRequest model content true, localRequest model content false])

/-- Claim-side declarative predicate, following the spec's wording of
the parsing rule: the pattern `<integer> out of <integer>` (with the
regex's whitespace and greedy-group conventions) matches at the head of
`l` with groups `c` and `t`.  The first group and the whitespace runs
are forced by the disjointness of the character classes; the trailing
head-of-rest condition expresses greediness of the second group. -/
def MatchAtHead (l : List Char) (c t : ℕ) : Prop :=
  ∃ d1 w1 w2 w3 d2 rest,
    l = d1 ++ (w1 ++ ('o' :: 'u' :: 't' :: (w2 ++ ('o' :: 'f' :: (w3 ++ (d2 ++ rest)))))) ∧
    d1 ≠ [] ∧ (∀ ch ∈ d1, isDigitChar ch = true) ∧
    w1 ≠ [] ∧ (∀ ch ∈ w1, isSpaceChar ch = true) ∧
    w2 ≠ [] ∧ (∀ ch ∈ w2, isSpaceChar ch = true) ∧
    w3 ≠ [] ∧ (∀ ch ∈ w3, isSpaceChar ch = true) ∧
    d2 ≠ [] ∧ (∀ ch ∈ d2, isDigitChar ch = true) ∧
    (∀ ch ∈ rest.head?, isDigitChar ch = false) ∧
    c = digitsToNat d1 ∧ t = digitsToNat d2

/-- The pattern occurs somewhere in `s` (at drop-position `i`). -/
def OccursAt (s : List Char) (i c t : ℕ) : Prop :=
  MatchAtHead (s.drop i) c t

/-- Concrete three-run scenario from the spec's aggregation example with
one unparseable run: scores 8/10 and 9/10 parse, the middle run does
not. -/
def demoRuns : List JudgmentRun :=
  [parse_score "8 out of 10 answers are correct.",
   parse_score "I cannot evaluate this transcript.",
   parse_score "9 out of 10 answers are correct."]

/-- Concrete judge outputs for a two-repetition scoring run whose second
repetition is unparseable. -/
def demoJudge : ℕ → String :=
  fun n => if n = 0 then "3 out of 4 answers are correct." else "no verdict"

/-- A suite environment whose configuration file is missing. -/
def demoEnv : SuiteEnv :=
  { suiteExists := true
    configExists := false
    models := [{ name := some "m", temperature := none }]
    questionsExists := true }

/-- A streaming judge call that fails. -/
def demoStreamFail : JudgeRequest → Except Unit (List String) :=
  fun _ => .error ()

/-- A local streaming judge call that fails. -/
def demoStreamFailLocal : JudgeRequest → Except Unit (List (Option String)) :=
  fun _ => .error ()

/-- A blocking judge call that answers with a parseable verdict. -/
def demoCreate : JudgeRequest → Except Unit String :=
  fun _ => .ok "2 out of 3 answers are correct."

example : reSearch "58 out of 100 answers are correct.".data = some (58, 100) := by decide

example : pyRound2 ((58 : ℚ) / 100 * 100) = 58 := by
  norm_num [pyRound2]

example : parse_score "58 out of 100 answers are correct." =
    { correct := some 58, total := some 100, percentage := some 58,
      raw_output := "58 out of 100 answers are correct.", parse_error := false } := by
  have h : reSearch "58 out of 100 answers are correct.".data = some (58, 100) := by decide
  simp only [parse_score, h]
  refine JudgmentRun.mk.injEq .. ▸ ⟨rfl, rfl, ?_, by decide, rfl⟩
  norm_num [pyRound2]

example : (parse_score "5 OUT OF 10").parse_error = true := by decide

/-! ## Character classes and maximal runs -/

theorem isSpaceChar_cases {c : Char} (h : isSpaceChar c = true) :
    c = ' ' ∨ c = '\t' ∨ c = '\n' ∨ c = '\r' ∨ c = '\x0b' ∨ c = '\x0c' := by
  simp only [isSpaceChar, Bool.or_eq_true, decide_eq_true_eq] at h
  tauto

theorem not_digit_of_space {c : Char} (h : isSpaceChar c = true) :
    isDigitChar c = false := by
  rcases isSpaceChar_cases h with rfl | rfl | rfl | rfl | rfl | rfl <;> decide

theorem not_space_of_digit {c : Char} (h : isDigitChar c = true) :
    isSpaceChar c = false := by
  cases hs : isSpaceChar c with
  | false => rfl
  | true => rw [not_digit_of_space hs] at h; exact absurd h (by decide)

theorem takeWhile_append_of {p : Char → Bool} {a b : List Char}
    (ha : ∀ x ∈ a, p x = true) (hb : ∀ x ∈ b.head?, p x = false) :
    (a ++ b).takeWhile p = a := by
  induction a with
  | nil =>
    cases b with
    | nil => rfl
    | cons x xs => simp [List.takeWhile_cons, hb x rfl]
  | cons x xs ih =>
    have hx : p x = true := ha x (by simp)
    simp [List.takeWhile_cons, hx, ih (fun y hy => ha y (by simp [hy]))]

theorem dropWhile_append_of {p : Char → Bool} {a b : List Char}
    (ha : ∀ x ∈ a, p x = true) (hb : ∀ x ∈ b.head?, p x = false) :
    (a ++ b).dropWhile p = b := by
  induction a with
  | nil =>
    cases b with
    | nil => rfl
    | cons x xs => simp [List.dropWhile_cons, hb x rfl]
  | cons x xs ih =>
    have hx : p x = true := ha x (by simp)
    simp [List.dropWhile_cons, hx, ih (fun y hy => ha y (by simp [hy]))]

theorem head?_dropWhile_false (p : Char → Bool) (l : List Char) :
    ∀ x ∈ (l.dropWhile p).head?, p x = false := by
  intro x hx
  have h := List.head?_dropWhile_not p l
  cases hh : (l.dropWhile p).head? with
  | none => rw [hh] at hx; exact absurd hx (by simp)
  | some y =>
    rw [hh] at hx h
    have hxy : y = x := by simpa using hx
    subst hxy
    exact h

theorem takeRun_eq_some_iff {p : Char → Bool} {l a r : List Char} :
    takeRun p l = some (a, r) ↔
      l = a ++ r ∧ a ≠ [] ∧ (∀ x ∈ a, p x = true) ∧ ∀ x ∈ r.head?, p x = false := by
  constructor
  · intro h
    unfold takeRun at h
    split at h
    · exact absurd h (by simp)
    · rename_i hne
      obtain ⟨h1, h2⟩ := Prod.ext_iff.mp (Option.some.inj h)
      subst h1; subst h2
      refine ⟨(List.takeWhile_append_dropWhile p l).symm, hne, ?_, ?_⟩
      · exact fun x hx => List.mem_takeWhile_imp hx
      · exact head?_dropWhile_false p l
  · rintro ⟨rfl, hne, ha, hr⟩
    unfold takeRun
    rw [takeWhile_append_of ha hr, dropWhile_append_of ha hr, if_neg hne]

theorem takeRun_eq_none_iff {p : Char → Bool} {l : List Char} :
    takeRun p l = none ↔ ∀ x ∈ l.head?, p x = false := by
  unfold takeRun
  cases l with
  | nil => simp
  | cons x xs =>
    simp only [List.takeWhile_cons, List.head?_cons, Option.mem_some_iff]
    cases hx : p x with
    | false => simp [hx]
    | true =>
      simp only [if_true]
      constructor
      · intro h; exact absurd h (by simp)
      · intro h; exact absurd (h x rfl) (by simp [hx])

theorem takeRun_split (p : Char → Bool) (a b : List Char) (hne : a ≠ [])
    (ha : ∀ x ∈ a, p x = true) (hb : ∀ x ∈ b.head?, p x = false) :
    takeRun p (a ++ b) = some (a, b) :=
  takeRun_eq_some_iff.mpr ⟨rfl, hne, ha, hb⟩

theorem head?_append_of_ne_nil {a : List Char} (b : List Char) (h : a ≠ []) :
    (a ++ b).head? = a.head? := by
  cases a with
  | nil => exact absurd rfl h
  | cons x xs => rfl

theorem head?_space_not_digit (w b : List Char) (hne : w ≠ [])
    (hw : ∀ x ∈ w, isSpaceChar x = true) :
    ∀ x ∈ (w ++ b).head?, isDigitChar x = false := by
  intro x hx
  rw [head?_append_of_ne_nil b hne] at hx
  exact not_digit_of_space (hw x (List.mem_of_mem_head? hx))

theorem head?_digit_not_space (d b : List Char) (hne : d ≠ [])
    (hd : ∀ x ∈ d, isDigitChar x = true) :
    ∀ x ∈ (d ++ b).head?, isSpaceChar x = false := by
  intro x hx
  rw [head?_append_of_ne_nil b hne] at hx
  exact not_space_of_digit (hd x (List.mem_of_mem_head? hx))

theorem head?_o_cons_not_space (b : List Char) :
    ∀ x ∈ (('o' : Char) :: b).head?, isSpaceChar x = false := by
  intro x hx
  simp only [List.head?_cons, Option.mem_some_iff] at hx
  subst hx
  decide

/-! ## The operational matcher agrees with the declarative pattern -/

theorem MatchAtHead_of_matchHere {l : List Char} {c t : ℕ}
    (h : matchHere l = some (c, t)) : MatchAtHead l c t := by
  simp only [matchHere, Option.bind_eq_some] at h
  obtain ⟨⟨d1, r1⟩, h1, ⟨w1, r2⟩, h2, h3⟩ := h
  dsimp only at h3
  split at h3
  case _ r3 =>
    simp only [Option.bind_eq_some] at h3
    obtain ⟨⟨w2, r4⟩, h4, h5⟩ := h3
    dsimp only at h5
    split at h5
    case _ r5 =>
      simp only [Option.bind_eq_some] at h5
      obtain ⟨⟨w3, r6⟩, h6, ⟨d2, rest⟩, h7, h8⟩ := h5
      obtain ⟨hc, ht⟩ := Prod.ext_iff.mp (Option.some.inj h8)
      obtain ⟨heq1, hne1, hall1, hhd1⟩ := takeRun_eq_some_iff.mp h1
      obtain ⟨heq2, hne2, hall2, hhd2⟩ := takeRun_eq_some_iff.mp h2
      obtain ⟨heq4, hne4, hall4, hhd4⟩ := takeRun_eq_some_iff.mp h4
      obtain ⟨heq6, hne6, hall6, hhd6⟩ := takeRun_eq_some_iff.mp h6
      obtain ⟨heq7, hne7, hall7, hhd7⟩ := takeRun_eq_some_iff.mp h7
      subst heq1 heq2 heq4 heq6 heq7
      exact ⟨d1, w1, w2, w3, d2, rest, rfl, hne1, hall1, hne2, hall2, hne4, hall4,
        hne6, hall6, hne7, hall7, hhd7, hc.symm, ht.symm⟩
    case _ => exact absurd h5 (by simp)
  case _ => exact absurd h3 (by simp)

theorem matchHere_of_MatchAtHead {l : List Char} {c t : ℕ}
    (h : MatchAtHead l c t) : matchHere l = some (c, t) := by
  obtain ⟨d1, w1, w2, w3, d2, rest, heq, hne1, hall1, hne2, hall2, hne4, hall4,
    hne6, hall6, hne7, hall7, hrest, hc, ht⟩ := h
  subst heq hc ht
  have h1 := takeRun_split isDigitChar d1
    (w1 ++ ('o' :: 'u' :: 't' :: (w2 ++ ('o' :: 'f' :: (w3 ++ (d2 ++ rest))))))
    hne1 hall1 (head?_space_not_digit w1 _ hne2 hall2)
  have h2 := takeRun_split isSpaceChar w1
    ('o' :: 'u' :: 't' :: (w2 ++ ('o' :: 'f' :: (w3 ++ (d2 ++ rest)))))
    hne2 hall2 (head?_o_cons_not_space _)
  have h4 := takeRun_split isSpaceChar w2
    ('o' :: 'f' :: (w3 ++ (d2 ++ rest)))
    hne4 hall4 (head?_o_cons_not_space _)
  have h6 := takeRun_split isSpaceChar w3 (d2 ++ rest)
    hne6 hall6 (head?_digit_not_space d2 rest hne7 hall7)
  have h7 := takeRun_split isDigitChar d2 rest hne7 hall7 hrest
  simp only [matchHere, h1, Option.some_bind, h2, h4, h6, h7]

theorem MatchAtHead_nil {c t : ℕ} : ¬ MatchAtHead [] c t := by
  rintro ⟨d1, w1, w2, w3, d2, rest, heq, hne1, -⟩
  exact hne1 (List.append_eq_nil.mp heq.symm).1

theorem matchHere_eq_none_iff {l : List Char} :
    matchHere l = none ↔ ∀ c t, ¬ MatchAtHead l c t := by
  constructor
  · intro h c t hm
    rw [matchHere_of_MatchAtHead hm] at h
    exact absurd h (by simp)
  · intro h
    cases hm : matchHere l with
    | none => rfl
    | some r =>
      obtain ⟨c', t'⟩ := r
      exact absurd (MatchAtHead_of_matchHere hm) (h c' t')

theorem reSearch_eq_some_iff {s : List Char} {c t : ℕ} :
    reSearch s = some (c, t) ↔
      ∃ i, MatchAtHead (s.drop i) c t ∧
        ∀ j, j < i → ∀ c2 t2, ¬ MatchAtHead (s.drop j) c2 t2 := by
  induction s with
  | nil =>
    constructor
    · intro h
      exact absurd h (by simp [reSearch])
    · rintro ⟨i, hmi, -⟩
      rw [List.drop_nil] at hmi
      exact absurd hmi MatchAtHead_nil
  | cons ch rest ih =>
    cases hm : matchHere (ch :: rest) with
    | some r =>
      obtain ⟨c', t'⟩ := r
      simp only [reSearch, hm]
      constructor
      · intro hsome
        obtain ⟨rfl, rfl⟩ := Prod.ext_iff.mp (Option.some.inj hsome)
        exact ⟨0, by rw [List.drop_zero]; exact MatchAtHead_of_matchHere hm,
          fun j hj => absurd hj (Nat.not_lt_zero j)⟩
      · rintro ⟨i, hmi, hmin⟩
        cases i with
        | zero =>
          rw [List.drop_zero] at hmi
          have := matchHere_of_MatchAtHead hmi
          rw [hm] at this
          obtain ⟨rfl, rfl⟩ := Prod.ext_iff.mp (Option.some.inj this)
          rfl
        | succ i' =>
          have h0 := hmin 0 (Nat.succ_pos i') c' t'
          rw [List.drop_zero] at h0
          exact absurd (MatchAtHead_of_matchHere hm) h0
    | none =>
      simp only [reSearch, hm]
      rw [ih]
      constructor
      · rintro ⟨i, hmi, hmin⟩
        refine ⟨i + 1, by rwa [List.drop_succ_cons], ?_⟩
        intro j hj c2 t2
        cases j with
        | zero =>
          rw [List.drop_zero]
          exact matchHere_eq_none_iff.mp hm c2 t2
        | succ j' =>
          rw [List.drop_succ_cons]
          exact hmin j' (by omega) c2 t2
      · rintro ⟨i, hmi, hmin⟩
        cases i with
        | zero =>
          rw [List.drop_zero] at hmi
          rw [matchHere_of_MatchAtHead hmi] at hm
          exact absurd hm (by simp)
        | succ i' =>
          refine ⟨i', by rwa [List.drop_succ_cons] at hmi, fun j hj c2 t2 => ?_⟩
          have := hmin (j + 1) (by omega) c2 t2
          rwa [List.drop_succ_cons] at this

theorem reSearch_eq_none_iff {s : List Char} :
    reSearch s = none ↔ ∀ i c t, ¬ MatchAtHead (s.drop i) c t := by
  induction s with
  | nil =>
    constructor
    · intro _ i c t
      rw [List.drop_nil]
      exact MatchAtHead_nil
    · intro _
      rfl
  | cons ch rest ih =>
    constructor
    · intro h i c t
      have hm : matchHere (ch :: rest) = none := by
        cases hmm : matchHere (ch :: rest) with
        | none => rfl
        | some r => simp [reSearch, hmm] at h
      have h2 : reSearch rest = none := by simpa [reSearch, hm] using h
      cases i with
      | zero =>
        rw [List.drop_zero]
        exact matchHere_eq_none_iff.mp hm c t
      | succ i' =>
        rw [List.drop_succ_cons]
        exact ih.mp h2 i' c t
    · intro h
      have hm : matchHere (ch :: rest) = none :=
        matchHere_eq_none_iff.mpr (fun c t => by
          have := h 0 c t
          rwa [List.drop_zero] at this)
      simp only [reSearch, hm]
      exact ih.mpr (fun i c t => by
        have := h (i + 1) c t
        rwa [List.drop_succ_cons] at this)

/-! ## Statistics helpers -/

theorem length_filterMap_eq_iff {α β : Type} (f : α → Option β) (l : List α) :
    (l.filterMap f).length = l.length ↔ ∀ a ∈ l, (f a).isSome := by
  induction l with
  | nil => simp
  | cons a t ih =>
    simp only [List.filterMap_cons, List.mem_cons, forall_eq_or_imp, List.length_cons]
    cases hfa : f a with
    | none =>
      have hle := List.length_filterMap_le f t
      simp only [Option.isSome_none, Bool.false_eq_true, false_and, iff_false]
      omega
    | some b =>
      simp only [Option.isSome_some, true_and, List.length_cons, Nat.add_right_cancel_iff]
      exact ih

theorem filterMap_correct_filter (runs : List JudgmentRun) :
    (runs.filter (fun r => r.correct.isSome)).filterMap (fun r => r.correct)
      = runs.filterMap (fun r => r.correct) := by
  induction runs with
  | nil => rfl
  | cons r t ih =>
    cases hr : r.correct with
    | none => simp [List.filter_cons, List.filterMap_cons, hr, ih]
    | some v => simp [List.filter_cons, List.filterMap_cons, hr, ih]

theorem filterMap_percentage_filter (runs : List JudgmentRun)
    (hwf : ∀ r ∈ runs, r.correct.isSome ↔ r.percentage.isSome) :
    (runs.filter (fun r => r.correct.isSome)).filterMap (fun r => r.percentage)
      = runs.filterMap (fun r => r.percentage) := by
  induction runs with
  | nil => rfl
  | cons r t ih =>
    have hr := hwf r (by simp)
    have iht := ih (fun x hx => hwf x (by simp [hx]))
    cases hc : r.correct with
    | none =>
      have hp : r.percentage = none := by
        cases hp : r.percentage with
        | none => rfl
        | some v => exact absurd (hr.mpr (by simp [hp])) (by simp [hc])
      simp [List.filter_cons, List.filterMap_cons, hc, hp, iht]
    | some v => simp [List.filter_cons, List.filterMap_cons, hc, iht]

theorem min?_spec {l : List ℕ} (h : l ≠ []) :
    ∃ m, l.min? = some m ∧ m ∈ l ∧ ∀ x ∈ l, m ≤ x := by
  obtain ⟨m, hm⟩ : ∃ m, l.min? = some m := by
    cases l with
    | nil => exact absurd rfl h
    | cons a t => exact ⟨_, List.min?_cons⟩
  have hspec := (List.min?_eq_some_iff (fun a => le_refl a) (fun a b => min_choice a b)
    (fun a b c => le_min_iff)).mp hm
  exact ⟨m, hm, hspec.1, hspec.2⟩

theorem max?_spec {l : List ℕ} (h : l ≠ []) :
    ∃ m, l.max? = some m ∧ m ∈ l ∧ ∀ x ∈ l, x ≤ m := by
  obtain ⟨m, hm⟩ : ∃ m, l.max? = some m := by
    cases l with
    | nil => exact absurd rfl h
    | cons a t => exact ⟨_, List.max?_cons⟩
  have hspec := (List.max?_eq_some_iff (fun a => le_refl a) (fun a b => max_choice a b)
    (fun a b c => max_le_iff)).mp hm
  exact ⟨m, hm, hspec.1, hspec.2⟩

/-! ## String concatenation helpers -/

theorem string_join_cons (s : String) (l : List String) :
    String.join (s :: l) = s ++ String.join l := by
  apply String.ext
  simp [String.join_eq, String.data_append]

theorem foldl_append_eq (l : List String) :
    ∀ acc : String, l.foldl (fun a s => a ++ s) acc = acc ++ String.join l := by
  induction l with
  | nil =>
    intro acc
    rw [List.foldl_nil]
    exact (String.append_empty acc).symm
  | cons s t ih =>
    intro acc
    rw [List.foldl_cons, ih, string_join_cons, String.append_assoc]

theorem foldl_truthy_eq (chunks : List (Option String)) :
    ∀ acc : String,
      chunks.foldl (fun acc c => if pyTruthyStr c then acc ++ c.getD "" else acc) acc
        = acc ++ String.join (chunks.map (fun c => c.getD "")) := by
  induction chunks with
  | nil =>
    intro acc
    rw [List.foldl_nil]
    exact (String.append_empty acc).symm
  | cons c t ih =>
    intro acc
    rw [List.foldl_cons, List.map_cons, string_join_cons]
    cases hc : pyTruthyStr c with
    | true =>
      rw [if_pos rfl, ih, String.append_assoc]
    | false =>
      have hgd : c.getD "" = "" := by
        cases c with
        | none => rfl
        | some s =>
          simp only [pyTruthyStr, Bool.not_eq_true', Bool.not_eq_false'] at hc
          rw [(String.isEmpty_iff s).mp hc]
          rfl
      rw [if_neg (by simp), ih, hgd, String.empty_append]

/-! ## Claim theorems -/

/-- C5: when the configured repetition count is 0, scoring produces a
summary whose aggregate score fields (mean_correct, mean_percentage,
min_correct, max_correct) are all null and an empty runs list; the
pipeline is total, so no fatal error is raised (the summary display then
takes the mean-is-None branch and never touches `runs[0]`). -/
theorem score_zero_repetitions (judge : ℕ → String) :
    (score_results_file 0 judge).runs = [] ∧
    (score_results_file 0 judge).summary.mean_correct = none ∧
    (score_results_file 0 judge).summary.mean_percentage = none ∧
    (score_results_file 0 judge).summary.min_correct = none ∧
    (score_results_file 0 judge).summary.max_correct = none :=
  ⟨rfl, rfl, rfl, rfl, rfl⟩

/-- C6: a scoring run with repetition count R produces exactly R entries
in the runs list, the n-th being the parse of the n-th judge output; an
unparseable repetition contributes an entry with the parse-error flag
set, never a missing entry. -/
theorem score_runs_complete (repetitions : ℕ) (judge : ℕ → String) :
    (score_results_file repetitions judge).runs.length = repetitions ∧
    ∀ n, n < repetitions →
      (score_results_file repetitions judge).runs[n]? = some (parse_score (judge n)) ∧
      (reSearch (judge n).data = none →
        ∃ r, (score_results_file repetitions judge).runs[n]? = some r ∧
          r.parse_error = true) := by
  constructor
  · simp [score_results_file]
  · intro n hn
    have hidx : (score_results_file repetitions judge).runs[n]? =
        some (parse_score (judge n)) := by
      simp [score_results_file, List.getElem?_map, List.getElem?_range hn]
    refine ⟨hidx, fun hnone => ⟨parse_score (judge n), hidx, ?_⟩⟩
    simp [parse_score, hnone]

/-- Witness for C6: two repetitions, the second unparseable, still yield
a two-entry runs list whose second entry carries the parse-error flag. -/
theorem score_runs_complete_witness :
    (score_results_file 2 demoJudge).runs.length = 2 ∧
    ∃ r, (score_results_file 2 demoJudge).runs[1]? = some r ∧ r.parse_error = true := by
  obtain ⟨h1, h2⟩ := score_runs_complete 2 demoJudge
  obtain ⟨-, h3⟩ := h2 1 (by decide)
  exact ⟨h1, h3 (by decide)⟩

/-- C7: a completed transcript is exactly the concatenation, in source
order, of one fixed-format answer block per question record — N blocks
for N questions. -/
theorem build_transcript_blocks (ask : String → String)
    (questions : List QuestionRecord) :
    build_transcript ask questions =
      String.join (questions.map (fun row => answer_block row (ask row.question))) ∧
    (questions.map (fun row => answer_block row (ask row.question))).length
      = questions.length := by
  constructor
  · have h1 := List.foldl_map (fun row => answer_block row (ask row.question))
      (fun a s => a ++ s) questions ""
    have h2 := foldl_append_eq
      (questions.map fun row => answer_block row (ask row.question)) ""
    rw [String.empty_append] at h2
    exact h1.symm.trans h2
  · exact List.length_map _ _

/-- C9: under any setup error (missing configuration, no models
configured, missing questions file) the run aborts with an error and
the trace of generation requests is empty: no model is ever contacted. -/
theorem setup_error_no_generation (env : SuiteEnv) (prompt_config : PromptConfig)
    (ask : GenRequest → String) (questions : List QuestionRecord)
    (h : env.configExists = false ∨ env.models = [] ∨ env.questionsExists = false) :
    (run_test_suite env prompt_config ask questions).2 = [] ∧
    ∃ e, (run_test_suite env prompt_config ask questions).1 = Except.error e := by
  unfold run_test_suite
  cases hsu : env.suiteExists with
  | false => exact ⟨rfl, ⟨.suiteMissing, rfl⟩⟩
  | true =>
    cases hc : env.configExists with
    | false => exact ⟨rfl, ⟨.configMissing, rfl⟩⟩
    | true =>
      cases hm : env.models with
      | nil => exact ⟨rfl, ⟨.noModels, rfl⟩⟩
      | cons m ms =>
        cases hq : env.questionsExists with
        | false => exact ⟨rfl, ⟨.questionsMissing, rfl⟩⟩
        | true =>
          rcases h with h | h | h
          · rw [hc] at h; exact absurd h (by simp)
          · rw [hm] at h; exact absurd h (by simp)
          · rw [hq] at h; exact absurd h (by simp)

/-- Witness for C9: with the configuration file missing, the run errors
out and the generation trace is empty. -/
theorem setup_error_no_generation_witness :
    (run_test_suite demoEnv { system_message := none } (fun _ => "") []).2 = [] ∧
    ∃ e, (run_test_suite demoEnv { system_message := none } (fun _ => "") []).1
      = Except.error e :=
  setup_error_no_generation demoEnv { system_message := none } (fun _ => "") []
    (Or.inl rfl)

/-- C10: a model configuration without a temperature key is sent with
temperature 0.0 (the default in `prompt`), while the progress display
reports 0.7 (the default on its print line); the request value is 0.0. -/
theorem temperature_default_mismatch (model_config : ModelSpec)
    (prompt_config : PromptConfig) (question : String)
    (h : model_config.temperature = none) :
    (prompt model_config prompt_config question).temperature = 0 ∧
    displayed_temperature model_config = 7 / 10 := by
  simp [prompt, displayed_temperature, h]

/-- Witness for C10: a concrete temperature-less model spec. -/
theorem temperature_default_mismatch_witness :
    (prompt { name := some "m", temperature := none } { system_message := none }
      "q").temperature = 0 ∧
    displayed_temperature { name := some "m", temperature := none } = 7 / 10 :=
  temperature_default_mismatch { name := some "m", temperature := none }
    { system_message := none } "q" rfl

/-- C8: on a streaming-capable judge path (Anthropic or local), a
successful stream returns the concatenation of the streamed tokens with
a single streaming request issued; a failed stream is followed by
exactly one non-streaming call whose arguments are identical except for
the stream flag, and that call's outcome (including its error, if any)
is what the caller sees — so the fallback is always attempted before
any error surfaces. -/
theorem judge_streaming_fallback (model content : String)
    (streamA : JudgeRequest → Except Unit (List String))
    (createA : JudgeRequest → Except Unit String)
    (streamL : JudgeRequest → Except Unit (List (Option String)))
    (createL : JudgeRequest → Except Unit String) :
    (∀ tokens, streamA (anthropicRequest model content true) = .ok tokens →
      evaluate_with_anthropic model streamA createA content =
        (.ok (String.join tokens), [anthropicRequest model content true])) ∧
    (∀ e, streamA (anthropicRequest model content true) = .error e →
      evaluate_with_anthropic model streamA createA content =
        (createA (anthropicRequest model content false),
          [anthropicRequest model content true, anthropicRequest model content false]) ∧
      anthropicRequest model content false =
        { anthropicRequest model content true with stream := false }) ∧
    (∀ chunks, streamL (localRequest model content true) = .ok chunks →
      evaluate_with_local model streamL createL content =
        (.ok (String.join (chunks.map (fun c => c.getD ""))),
          [localRequest model content true])) ∧
    (∀ e, streamL (localRequest model content true) = .error e →
      evaluate_with_local model streamL createL content =
        (createL (localRequest model content false),
          [localRequest model content true, localRequest model content false]) ∧
      localRequest model content false =
        { localRequest model content true with stream := false }) := by
  refine ⟨fun tokens h => ?_, fun e h => ⟨?_, rfl⟩, fun chunks h => ?_,
    fun e h => ⟨?_, rfl⟩⟩
  · unfold evaluate_with_anthropic
    rw [h]
    rfl
  · unfold evaluate_with_anthropic
    rw [h]
  · unfold evaluate_with_local
    rw [h]
    show (Except.ok (chunks.foldl
        (fun acc c => if pyTruthyStr c then acc ++ c.getD "" else acc) ""),
      [localRequest model content true]) = _
    rw [foldl_truthy_eq chunks "", String.empty_append]
  · unfold evaluate_with_local
    rw [h]

/-- Witness for C8: a failing stream followed by a successful blocking
call, on both provider paths. -/
theorem judge_streaming_fallback_witness :
    evaluate_with_anthropic "judge-model" demoStreamFail demoCreate "transcript" =
      (.ok "2 out of 3 answers are correct.",
        [anthropicRequest "judge-model" "transcript" true,
         anthropicRequest "judge-model" "transcript" false]) ∧
    evaluate_with_local "judge-model" demoStreamFailLocal demoCreate "transcript" =
      (.ok "2 out of 3 answers are correct.",
        [localRequest "judge-model" "transcript" true,
         localRequest "judge-model" "transcript" false]) := by
  have h := judge_streaming_fallback "judge-model" "transcript"
    demoStreamFail demoCreate demoStreamFailLocal demoCreate
  exact ⟨(h.2.1 () rfl).1, (h.2.2.2 () rfl).1⟩

theorem calculate_statistics_empty {runs : List JudgmentRun}
    (h : runs.filterMap (fun r => r.correct) = []) :
    calculate_statistics runs =
      { mean_correct := none, mean_percentage := none, min_correct := none,
        max_correct := none, all_runs_parsed := false } := by
  have hyes : (runs.filterMap (fun r => r.correct)).isEmpty = true :=
    List.isEmpty_iff.mpr h
  simp only [calculate_statistics]
  rw [if_pos hyes]

theorem calculate_statistics_else {runs : List JudgmentRun}
    (h : runs.filterMap (fun r => r.correct) ≠ []) :
    calculate_statistics runs =
      { mean_correct := some (pyRound2
          ((((runs.filterMap (fun r => r.correct) : List ℕ)).sum : ℚ) /
            (runs.filterMap (fun r => r.correct)).length))
        mean_percentage := some (pyRound2
          ((runs.filterMap (fun r => r.percentage)).sum /
            (runs.filterMap (fun r => r.percentage)).length))
        min_correct := (runs.filterMap (fun r => r.correct)).min?
        max_correct := (runs.filterMap (fun r => r.correct)).max?
        all_runs_parsed :=
          (runs.filterMap (fun r => r.correct)).length = runs.length } := by
  have hne : ¬ ((runs.filterMap (fun r => r.correct)).isEmpty = true) :=
    fun hh => h (List.isEmpty_iff.mp hh)
  simp only [calculate_statistics]
  rw [if_neg hne]

/-- C4 (amended): `all_runs_parsed` is true iff the runs list is
nonempty and every repetition produced a parseable score; on the empty
list the code returns false, not the vacuous true. -/
theorem all_runs_parsed_spec (runs : List JudgmentRun) :
    (calculate_statistics runs).all_runs_parsed
      = (!runs.isEmpty && runs.all fun r => r.correct.isSome) := by
  by_cases hempty : runs.filterMap (fun r => r.correct) = []
  · rw [calculate_statistics_empty hempty]
    cases runs with
    | nil => rfl
    | cons r t =>
      have hr : r.correct = none := List.filterMap_eq_nil_iff.mp hempty r (by simp)
      simp [List.all_cons, hr]
  · rw [calculate_statistics_else hempty]
    have hne : runs ≠ [] := by rintro rfl; exact hempty rfl
    have h1 : (!runs.isEmpty) = true := by
      cases hruns : runs.isEmpty with
      | false => rfl
      | true => exact absurd (List.isEmpty_iff.mp hruns) hne
    rw [h1, Bool.true_and]
    cases hall : runs.all (fun r => r.correct.isSome) with
    | true =>
      have hsome : ∀ a ∈ runs, (a.correct).isSome := by
        simpa [List.all_eq_true] using hall
      simp [(length_filterMap_eq_iff (fun r => r.correct) runs).mpr hsome]
    | false =>
      refine decide_eq_false ?_
      intro hlen
      have hsome := (length_filterMap_eq_iff (fun r => r.correct) runs).mp hlen
      have : runs.all (fun r => r.correct.isSome) = true := by
        rw [List.all_eq_true]
        exact fun a ha => hsome a ha
      rw [this] at hall
      exact absurd hall (by simp)

/-- Counterexample for C4: on the empty runs list every repetition
vacuously parsed, yet `all_runs_parsed` is false, not true. -/
theorem all_runs_parsed_empty_counterexample :
    (([] : List JudgmentRun).all fun r => r.correct.isSome) = true ∧
    (calculate_statistics []).all_runs_parsed = false :=
  ⟨rfl, rfl⟩

/-- C3: for judgment runs as `parse_score` produces them (the parsed
fields are present together), the means are arithmetic means over the
parsed values only — each with its own denominator — rounded to 2
decimals and None when nothing parsed; the extrema range over parsed
values only; and dropping the unparseable runs changes none of the four
numeric aggregates, so an unparseable run is excluded rather than
counted as zero. -/
theorem aggregation_spec (runs : List JudgmentRun)
    (hwf : ∀ r ∈ runs, r.correct.isSome ↔ r.percentage.isSome) :
    (runs.filterMap (fun r => r.correct) = [] →
      (calculate_statistics runs).mean_correct = none ∧
      (calculate_statistics runs).mean_percentage = none ∧
      (calculate_statistics runs).min_correct = none ∧
      (calculate_statistics runs).max_correct = none) ∧
    (runs.filterMap (fun r => r.correct) ≠ [] →
      (calculate_statistics runs).mean_correct = some (pyRound2
        ((((runs.filterMap (fun r => r.correct) : List ℕ)).sum : ℚ) /
          (runs.filterMap (fun r => r.correct)).length)) ∧
      (calculate_statistics runs).mean_percentage = some (pyRound2
        ((runs.filterMap (fun r => r.percentage)).sum /
          (runs.filterMap (fun r => r.percentage)).length)) ∧
      (∃ m, (calculate_statistics runs).min_correct = some m ∧
        m ∈ runs.filterMap (fun r => r.correct) ∧
        ∀ x ∈ runs.filterMap (fun r => r.correct), m ≤ x) ∧
      (∃ m, (calculate_statistics runs).max_correct = some m ∧
        m ∈ runs.filterMap (fun r => r.correct) ∧
        ∀ x ∈ runs.filterMap (fun r => r.correct), x ≤ m)) ∧
    (calculate_statistics (runs.filter (fun r => r.correct.isSome))).mean_correct
      = (calculate_statistics runs).mean_correct ∧
    (calculate_statistics (runs.filter (fun r => r.correct.isSome))).mean_percentage
      = (calculate_statistics runs).mean_percentage ∧
    (calculate_statistics (runs.filter (fun r => r.correct.isSome))).min_correct
      = (calculate_statistics runs).min_correct ∧
    (calculate_statistics (runs.filter (fun r => r.correct.isSome))).max_correct
      = (calculate_statistics runs).max_correct := by
  have hcf := filterMap_correct_filter runs
  have hpf := filterMap_percentage_filter runs hwf
  by_cases hempty : runs.filterMap (fun r => r.correct) = []
  · have h1 := calculate_statistics_empty hempty
    have h2 := @calculate_statistics_empty
      (runs.filter (fun r => r.correct.isSome)) (hcf.trans hempty)
    rw [h1, h2]
    exact ⟨fun _ => ⟨rfl, rfl, rfl, rfl⟩, fun hne => absurd hempty hne,
      rfl, rfl, rfl, rfl⟩
  · have h1 := calculate_statistics_else hempty
    have hfne : (runs.filter (fun r => r.correct.isSome)).filterMap
        (fun r => r.correct) ≠ [] := by rw [hcf]; exact hempty
    have h2 := calculate_statistics_else hfne
    rw [h1, h2]
    refine ⟨fun he => absurd he hempty, fun _ => ⟨rfl, rfl, ?_, ?_⟩, ?_, ?_, ?_, ?_⟩
    · obtain ⟨m, hm, hmem, hle⟩ := min?_spec hempty
      exact ⟨m, hm, hmem, hle⟩
    · obtain ⟨m, hm, hmem, hle⟩ := max?_spec hempty
      exact ⟨m, hm, hmem, hle⟩
    · rw [hcf]
    · rw [hpf]
    · rw [hcf]
    · rw [hcf]

/-- Witness for C3: three runs with one unparseable; the mean is over
the two parsed runs (8 and 9), and all_runs_parsed is false. -/
theorem aggregation_spec_witness :
    (calculate_statistics demoRuns).mean_correct = some (pyRound2 ((17 : ℚ) / 2)) ∧
    (calculate_statistics demoRuns).all_runs_parsed = false := by
  have h := (aggregation_spec demoRuns (by decide)).2.1 (by decide)
  refine ⟨?_, by decide⟩
  rw [h.1]
  have hfm : (demoRuns.filterMap (fun r => r.correct) : List ℕ) = [8, 9] := by decide
  rw [hfm]
  norm_num

/-- C1 (corrected to the code's case-sensitive matching): score parsing
returns the groups of the first occurrence of the case-sensitive
pattern `(\d+)\s+out\s+of\s+(\d+)`, with percentage = correct/total×100
(0 when total is 0) rounded to 2 decimals; in particular an input
containing "58 out of 100" yields 58/100 at 58.0 percent and
"87 out of 116" yields 87/116 at 75.0 percent. -/
theorem parse_score_first_match (s : String) (i c t : ℕ)
    (hmatch : OccursAt s.data i c t)
    (hfirst : ∀ j, j < i → ∀ c2 t2, ¬ OccursAt s.data j c2 t2) :
    ((parse_score s).correct = some c ∧
     (parse_score s).total = some t ∧
     (parse_score s).percentage =
       some (pyRound2 (if 0 < t then (c : ℚ) / t * 100 else 0)) ∧
     (parse_score s).parse_error = false) ∧
    (parse_score "Graded: 58 out of 100 answers are correct.").correct = some 58 ∧
    (parse_score "Graded: 58 out of 100 answers are correct.").total = some 100 ∧
    (parse_score "Graded: 58 out of 100 answers are correct.").percentage = some 58 ∧
    (parse_score "87 out of 116 answers are correct.").correct = some 87 ∧
    (parse_score "87 out of 116 answers are correct.").total = some 116 ∧
    (parse_score "87 out of 116 answers are correct.").percentage = some 75 := by
  have hs : reSearch s.data = some (c, t) :=
    reSearch_eq_some_iff.mpr ⟨i, hmatch, hfirst⟩
  have hx : reSearch "Graded: 58 out of 100 answers are correct.".data
      = some (58, 100) := by decide
  have hy : reSearch "87 out of 116 answers are correct.".data
      = some (87, 116) := by decide
  refine ⟨⟨?_, ?_, ?_, ?_⟩, ?_, ?_, ?_, ?_, ?_, ?_⟩
  · simp [parse_score, hs]
  · simp [parse_score, hs]
  · simp [parse_score, hs]
  · simp [parse_score, hs]
  · simp [parse_score, hx]
  · simp [parse_score, hx]
  · simp only [parse_score, hx]
    norm_num [pyRound2]
  · simp [parse_score, hy]
  · simp [parse_score, hy]
  · simp only [parse_score, hy]
    norm_num [pyRound2]

/-- Witness for C1: the pattern at position 0 of "58 out of 100". -/
theorem parse_score_first_match_witness :
    (parse_score "58 out of 100").correct = some 58 ∧
    (parse_score "58 out of 100").total = some 100 := by
  have h := parse_score_first_match "58 out of 100" 0 58 100
    ⟨['5', '8'], [' '], [' '], [' '], ['1', '0', '0'], [], by decide⟩
    (fun j hj => absurd hj (Nat.not_lt_zero j))
  exact ⟨h.1.1, h.1.2.1⟩

/-- Counterexample for C1: the code's regex has no ignore-case flag, so
the upper-case verdict "5 OUT OF 10" does not parse, while the claim's
case-insensitive matching would require correct = 5; the lower-case
spelling parses. -/
theorem parse_score_case_counterexample :
    (parse_score "5 OUT OF 10").correct = none ∧
    (parse_score "5 OUT OF 10").parse_error = true ∧
    (parse_score "5 out of 10").correct = some 5 ∧
    (parse_score "5 out of 10").total = some 10 :=
  ⟨by decide, by decide, by decide, by decide⟩

/-- C2 (corrected): on an input without any occurrence of the pattern,
the numeric fields are all None and the parse-error flag is set, but
raw_output holds the input after Python's `.strip()` — the raw text
with leading and trailing whitespace removed, not the verbatim text. -/
theorem parse_score_no_match (s : String)
    (h : ∀ i c2 t2, ¬ OccursAt s.data i c2 t2) :
    (parse_score s).correct = none ∧
    (parse_score s).total = none ∧
    (parse_score s).percentage = none ∧
    (parse_score s).parse_error = true ∧
    (parse_score s).raw_output = ⟨pyStrip s.data⟩ := by
  have hs : reSearch s.data = none := reSearch_eq_none_iff.mpr h
  refine ⟨?_, ?_, ?_, ?_, ?_⟩ <;> simp [parse_score, hs]

/-- Witness for C2: a judge answer with no score pattern. -/
theorem parse_score_no_match_witness :
    (parse_score "the judge refused to answer").correct = none ∧
    (parse_score "the judge refused to answer").parse_error = true := by
  have hn : reSearch "the judge refused to answer".data = none := by decide
  have h := parse_score_no_match "the judge refused to answer"
    (reSearch_eq_none_iff.mp hn)
  exact ⟨h.1, h.2.2.2.1⟩

/-- Counterexample for C2: raw_output is the stripped text, not the
verbatim judge output. -/
theorem parse_score_strip_counterexample :
    (parse_score "  no score  ").raw_output = "no score" ∧
    (parse_score "  no score  ").raw_output ≠ "  no score  " ∧
    (parse_score "  no score  ").parse_error = true :=
  ⟨by decide, by decide, by decide⟩
